import Mathlib

/-
Verification of the cdl-slides Markdown preprocessor core
(src/cdl_slides/preprocessor.py and src/cdl_slides/poster_preprocessor.py).

The Python source is shallowly embedded: Python strings become Lean `String`
(scanning is done on `List Char`), Python sets become `Finset ℕ`, Python
`None`-returning functions become `Option`, raising functions become `Except`,
and the decimal floating-point weight constants are modelled exactly as
rationals (`ℚ`).  Python `str.strip` / regex `\s` treat the ASCII whitespace
characters space, tab, newline, carriage return, vertical tab and form feed;
`isPySpace` mirrors that set.
-/

namespace CdlSlides

/- Python `\s` / `str.strip` whitespace (ASCII range, which is all that the
   processed slide sources use). -/
def isPySpace (c : Char) : Bool :=
  c = ' ' || c = '\t' || c = '\n' || c = '\r' || c = '\x0b' || c = '\x0c'

/- Python `str.strip()`. -/
def pyStrip (s : String) : String :=
  String.mk (((s.data.dropWhile isPySpace).reverse.dropWhile isPySpace).reverse)

/- `cs` begins with the characters of `pat` (regex/`startswith` literal test). -/
def headMatches (pat : String) (cs : List Char) : Bool :=
  decide (cs.take pat.length = pat.data)

/- Does `f` accept some suffix of the character list (regex `re.search` scans
   every start position, left to right)? -/
def anySuffix (f : List Char → Bool) : List Char → Bool
  | [] => f []
  | c :: rest => f (c :: rest) || anySuffix f rest

/- Leftmost-match search returning the value computed at the match position. -/
def findMapSuffix {α : Type} (f : List Char → Option α) : List Char → Option α
  | [] => f []
  | c :: rest => (f (c :: rest)).orElse (fun _ => findMapSuffix f rest)

/- Python `str.find(sub)`: index of the leftmost occurrence. -/
def strFind (pat : String) : List Char → Option Nat
  | [] => if pat.data = [] then some 0 else none
  | c :: rest =>
    if headMatches pat (c :: rest) then some 0
    else (strFind pat rest).map (· + 1)

/- Python `sub in s`. -/
def containsSub (s : String) (pat : String) : Bool :=
  (strFind pat s.data).isSome

/- Python `str.split(sep)` for a one-character separator (the only form the
   source uses: `split("|")` and `split("\n")`). -/
def splitChar (sep : Char) : List Char → List (List Char)
  | [] => [[]]
  | c :: rest =>
    if c = sep then [] :: splitChar sep rest
    else
      match splitChar sep rest with
      | g :: gs => (c :: g) :: gs
      | [] => [[c]]

def pySplit (s : String) (sep : Char) : List String :=
  (splitChar sep s.data).map String.mk

/- Python `str.startswith` / `str.endswith`. -/
def strHasPre (s pre : String) : Bool :=
  headMatches pre s.data

def strHasSuf (s suf : String) : Bool :=
  decide (s.data.reverse.take suf.data.length = suf.data.reverse)

/-
Table model (preprocessor.py `parse_markdown_table`, lines 461-496).
`separator` keeps the raw second line; Python code tests its truthiness,
i.e. non-emptiness.
-/
structure MarkdownTable where
  header : String
  separator : String
  dataRows : List String
  columnCount : Nat
  deriving Repr, DecidableEq

/- `[c.strip() for c in row.split("|") if c.strip()]` — the trimmed non-empty
   cells of a pipe row, in order. -/
def rowCells (row : String) : List String :=
  ((pySplit row '|').map pyStrip).filter (fun c => c ≠ "")

/- preprocessor.py `parse_markdown_table`: `None` on fewer than 2 lines. -/
def parse_markdown_table (lines : List String) : Option MarkdownTable :=
  match lines with
  | l0 :: l1 :: rest =>
    some { header := l0, separator := l1, dataRows := rest,
           columnCount := (rowCells l0).length }
  | _ => none

/- preprocessor.py `detect_long_columns` (lines 499-518): column indices of
   trimmed non-empty cells longer than `threshold` anywhere in the table. -/
def detect_long_columns (allDataRows : List String) (threshold : Nat := 25) :
    Finset ℕ :=
  allDataRows.foldl
    (fun acc row =>
      ((rowCells row).enum.filter (fun p => threshold < p.2.length)).foldl
        (fun a p => insert p.1 a) acc)
    ∅

/- Alignment of one separator cell (`generate_table_html`, lines 554-562). -/
def alignOfSepPart (part : String) : String :=
  if strHasPre part ":" && strHasSuf part ":" then "center"
  else if strHasSuf part ":" then "right"
  else if strHasPre part ":" then "left"
  else "center"

/- Alignments parsed from the separator row; empty separator (falsy in
   Python) yields no alignments. -/
def parseAlignments (separator : String) : List String :=
  if separator ≠ "" then (rowCells separator).map alignOfSepPart else []

/- Pad the alignment list with "center" up to the header cell count
   (`while len(alignments) < len(header_cells)` loop). -/
def padAlignments (alignments : List String) (n : Nat) : List String :=
  alignments ++ List.replicate (n - alignments.length) "center"

/- preprocessor.py `generate_table_html` (lines 521-603). -/
def generate_table_html (header separator : String) (dataRows : List String)
    (isContinuation : Bool := false) (isSplitTable : Bool := false)
    (leftAlignColumns : Finset ℕ := ∅) : List String :=
  let headerCells := rowCells header
  let alignments := padAlignments (parseAlignments separator) headerCells.length
  let classes := (if isSplitTable then ["split-table"] else []) ++
    (if isContinuation then ["table-continuation"] else [])
  let classAttr :=
    if classes ≠ [] then " class=\"" ++ String.intercalate " " classes ++ "\""
    else ""
  let headRows := headerCells.enum.map (fun p =>
    "<th style=\"text-align: " ++ alignments.getD p.1 "center" ++ "\">" ++
      p.2 ++ "</th>")
  let bodyRows := dataRows.bind (fun row =>
    ["<tr>"] ++
    ((rowCells row).enum.map (fun p =>
      let align := if p.1 ∈ leftAlignColumns then "left"
        else alignments.getD p.1 "center"
      "<td style=\"text-align: " ++ align ++ "\">" ++ p.2 ++ "</td>")) ++
    ["</tr>"])
  ["<table" ++ classAttr ++ ">", "<thead>", "<tr>"] ++ headRows ++
    ["</tr>", "</thead>", "<tbody>"] ++ bodyRows ++ ["</tbody>", "</table>"]

/-
Greedy chunking loop shared by `split_table` (lines 640-647) and the code
splitter (`process_markdown` lines 1365-1372): chunk 0 takes `firstMax`
elements, every later chunk takes `contMax`.  The Python `while` loop does
not terminate when the applicable budget is 0 and elements remain; the fuel
(initially the list length, enough whenever `0 < contMax`) makes the Lean
translation total.
-/
def buildChunksAux {α : Type} : Nat → List α → Nat → List (List α)
  | _, [], _ => []
  | 0, _, _ => []
  | fuel + 1, x :: rest, m =>
    (x :: rest).take m :: buildChunksAux fuel ((x :: rest).drop m) m

def buildChunks {α : Type} (xs : List α) (firstMax contMax : Nat) :
    List (List α) :=
  match xs with
  | [] => []
  | x :: rest =>
    (x :: rest).take firstMax ::
      buildChunksAux (x :: rest).length ((x :: rest).drop firstMax) contMax

/- Continuation-indicator lines appended after a table chunk
   (`split_table` lines 672-683). -/
def tableIndicator (isFirst isLast : Bool) : List String :=
  if isFirst && !isLast then
    ["", "<div class=\"table-continued-indicator\">continued...</div>"]
  else if !isFirst && !isLast then
    ["", "<div class=\"table-continued-indicator\">...continued...</div>"]
  else if !isFirst && isLast then
    ["", "<div class=\"table-continued-indicator-last\">...continued</div>"]
  else []

/- Lines emitted for the table chunk at index `p.1` (`split_table` loop body,
   lines 649-687). -/
def emitTableChunk (header separator currentTitle : String)
    (enclosingBoxDiv : Option String) (numChunks : Nat)
    (longColumns : Finset ℕ) (p : Nat × List String) : List String :=
  (if p.1 > 0 then
    ["", "---", ""] ++
    (if currentTitle ≠ "" then [currentTitle, ""] else []) ++
    (match enclosingBoxDiv with
     | some b => [b, ""]
     | none => [])
  else []) ++
  generate_table_html header separator p.2 (p.1 > 0) true longColumns ++
  tableIndicator (p.1 == 0) (p.1 == numChunks - 1) ++
  (match enclosingBoxDiv with
   | some _ => ["", "</div>"]
   | none => [])

/- preprocessor.py `split_table` (lines 606-689). -/
def split_table (tableLines : List String) (maxRows : Nat)
    (currentTitle : String) (contMaxRows : Option Nat := none)
    (enclosingBoxDiv : Option String := none) : List String :=
  let contMax := contMaxRows.getD maxRows
  match parse_markdown_table tableLines with
  | none => tableLines
  | some parsed =>
    if parsed.dataRows.length ≤ maxRows then tableLines
    else
      let longColumns := detect_long_columns parsed.dataRows
      let chunks := buildChunks parsed.dataRows maxRows contMax
      chunks.enum.bind
        (emitTableChunk parsed.header parsed.separator currentTitle
          enclosingBoxDiv chunks.length longColumns)

/- The table-processing decision of the driver (`process_markdown`
   lines 1470-1509): split only when splitting is enabled, the buffer parses
   as a table and its data rows exceed the first-chunk budget; otherwise the
   buffered markdown lines pass through unchanged. -/
def processTableBuffer (tableLines : List String) (firstMax contMax : Nat)
    (noSplit : Bool) (currentTitle : String)
    (enclosingBoxDiv : Option String) : List String :=
  match parse_markdown_table tableLines with
  | some parsed =>
    if !noSplit && parsed.dataRows.length > firstMax then
      split_table tableLines firstMax currentTitle (some contMax)
        enclosingBoxDiv
    else tableLines
  | none => tableLines

/-
Code-block splitter (process_markdown, lines 1360-1426).
-/

/- Python `html.escape` (quote=True), the fallback rendering of
   `highlight_code_line`. -/
def escapeChar (c : Char) : List Char :=
  if c = '&' then "&amp;".data
  else if c = '<' then "&lt;".data
  else if c = '>' then "&gt;".data
  else if c = '"' then "&quot;".data
  else if c = '\'' then "&#x27;".data
  else [c]

def htmlEscape (s : String) : String :=
  String.mk (s.data.bind escapeChar)

/- preprocessor.py `highlight_code_line` (lines 711-734), modelled with the
   optional external highlighter (Pygments) absent: the documented graceful
   degradation returns the escaped line unchanged. -/
def highlight_code_line (codeLine : String) (_lang : String) : String :=
  htmlEscape codeLine

/- The `class=...` attribute of the emitted `<pre><code>` element
   (lines 1392-1396). -/
def langClass (lang : String) : String :=
  if lang ≠ "" then "class=\"language-" ++ lang ++ " has-line-numbers\""
  else "class=\"has-line-numbers\""

/- One numbered, highlighted source line (line 1401-1403). -/
def renderCodeSpanLine (lineNum : Nat) (codeLine lang : String) : String :=
  "<span class=\"line\"><span class=\"line-num\">" ++ toString lineNum ++
    "</span><span class=\"line-code\">" ++ highlight_code_line codeLine lang ++
    "</span></span>"

/- Continuation-indicator lines appended after a code chunk
   (lines 1408-1419). -/
def codeIndicator (isFirst isLast : Bool) : List String :=
  if isFirst && !isLast then
    ["", "<div class=\"code-continued-indicator\">continued...</div>"]
  else if !isFirst && !isLast then
    ["", "<div class=\"code-continued-indicator\">...continued...</div>"]
  else if !isFirst && isLast then
    ["", "<div class=\"code-continued-indicator-last\">...continued</div>"]
  else []

/- The absolute line numbers rendered into the `line-num` spans of each
   chunk, in emission order: the chunk starting after `cumulative` already
   emitted lines numbers its lines `cumulative + 1 + idx` (lines 1377-1406). -/
def codeChunkLineNums : Nat → List (List String) → List Nat
  | _, [] => []
  | cumulative, chunk :: rest =>
    chunk.enum.map (fun q => cumulative + 1 + q.1) ++
      codeChunkLineNums (cumulative + chunk.length) rest

/- Emission loop of the split branch (lines 1377-1423): slide separator,
   carried title and reopened box on continuation chunks, then the numbered
   `<pre><code>` block, the position-dependent continuation indicator, and a
   synthetic box close. -/
def emitCodeChunksAux (lang currentTitle : String) (box : Option String)
    (numChunks : Nat) : Nat → Nat → List (List String) → List String
  | _, _, [] => []
  | chunkIdx, cumulative, chunk :: rest =>
    let startLineNum := cumulative + 1
    (if chunkIdx > 0 then
      ["", "---", ""] ++
      (if currentTitle ≠ "" then [currentTitle, ""] else []) ++
      (match box with
       | some b => [b, ""]
       | none => [])
    else []) ++
    ["<pre><code " ++ langClass lang ++ " data-start-line=\"" ++
      toString startLineNum ++ "\">"] ++
    chunk.enum.map (fun q => renderCodeSpanLine (startLineNum + q.1) q.2 lang) ++
    ["</code></pre>"] ++
    codeIndicator (chunkIdx == 0) (chunkIdx == numChunks - 1) ++
    (match box with
     | some _ => ["", "</div>"]
     | none => []) ++
    emitCodeChunksAux lang currentTitle box numChunks (chunkIdx + 1)
      (cumulative + chunk.length) rest

def emitSplitCodeBlock (buffer : List String) (firstMax contMax : Nat)
    (lang currentTitle : String) (box : Option String) : List String :=
  let chunks := buildChunks buffer firstMax contMax
  emitCodeChunksAux lang currentTitle box chunks.length 0 0 chunks

/-
Enclosing-box detector (preprocessor.py `detect_enclosing_box`,
lines 692-708) and its `class="[^"]*\b\w+-box\b` pattern.
-/

/- Python regex `\w` (the sources only use ASCII class names). -/
def isWordChar (c : Char) : Bool :=
  c.isAlphanum || c = '_'

/- Word boundary after "-box": next character absent or not `\w`. -/
def boundaryAfterBox : List Char → Bool
  | [] => true
  | c :: _ => !isWordChar c

/- After at least one word character: more word characters, then the literal
   "-box" followed by a word boundary. -/
def wordBoxTail : List Char → Bool
  | [] => false
  | c :: rest =>
    (headMatches "-box" (c :: rest) && boundaryAfterBox ((c :: rest).drop 4)) ||
      (isWordChar c && wordBoxTail rest)

def tryWordBox : List Char → Bool
  | [] => false
  | c :: rest => isWordChar c && wordBoxTail rest

/- Scan of the `[^"]*` region after `class="`; `prevW` records whether the
   previous character was a word character (for the `\b` before `\w+-box`). -/
def afterClassQuote : Bool → List Char → Bool
  | prevW, [] => !prevW && tryWordBox []
  | prevW, c :: rest =>
    (!prevW && tryWordBox (c :: rest)) ||
      (c ≠ '"' && afterClassQuote (isWordChar c) rest)

/- `re.search(r'class="[^"]*\b\w+-box\b', line)` as a Boolean. -/
def isBoxClassLine (s : String) : Bool :=
  anySuffix
    (fun cs => headMatches "class=\"" cs && afterClassQuote false (cs.drop 7))
    s.data

/- Backward scan of `detect_enclosing_box`: `steps` many indices are visited,
   starting at `idx` and descending. -/
def detectGo (lines : List String) : Nat → Nat → Nat → Option String
  | _, _, 0 => none
  | depth, idx, steps + 1 =>
    let stripped := pyStrip ((lines.get? idx).getD "")
    if stripped = "---" then none
    else if stripped = "</div>" then detectGo lines (depth + 1) (idx - 1) steps
    else if strHasPre stripped "<div " || stripped = "<div>" then
      if depth > 0 then detectGo lines (depth - 1) (idx - 1) steps
      else if isBoxClassLine stripped then some stripped
      else none
    else detectGo lines depth (idx - 1) steps

/- preprocessor.py `detect_enclosing_box`: Python's
   `range(search_from_idx - 1, max(search_from_idx - 30, -1), -1)` visits
   `min search_from_idx 29` indices, descending from `search_from_idx - 1`. -/
def detect_enclosing_box (resultLines : List String) (searchFromIdx : Nat) :
    Option String :=
  detectGo resultLines 0 (searchFromIdx - 1) (min searchFromIdx 29)

/-
Scale-directive recognition (preprocessor.py regexes, lines 809-811) and
`inject_scale_class` (lines 1135-1168).
-/

/- Match of the directive shape `<!--\s*_class:\s*([^>]*)\s*-->` at the head
   of `cs`.  Every pattern piece between `_class:` and the closing `-->` is
   `>`-free, so the `>` of `-->` is the first `>` after the colon; by
   greediness group 1 spans from the end of the maximal whitespace run after
   the colon to just before the `--`.  Returns (match length, group 1). -/
def classDirectiveAt (cs : List Char) : Option (Nat × List Char) :=
  if headMatches "<!--" cs then
    let afterBang := cs.drop 4
    let sp1 := (afterBang.takeWhile isPySpace).length
    let afterSp1 := afterBang.drop sp1
    if headMatches "_class:" afterSp1 then
      let t := afterSp1.drop 7
      match t.findIdx? (fun c => c = '>') with
      | some g =>
        if 2 ≤ g ∧ t.get? (g - 2) = some '-' ∧ t.get? (g - 1) = some '-' then
          let m1 := (t.takeWhile isPySpace).length
          some (4 + sp1 + 7 + g + 1, (t.take (g - 2)).drop m1)
        else none
      | none => none
    else none
  else none

/- Does the group-1 region contain `scale-` followed by a digit
   (the `scale-\d+` requirement of SCALE_CLASS_PATTERN)? -/
def hasScaleToken (r : List Char) : Bool :=
  anySuffix
    (fun cs => headMatches "scale-" cs &&
      (match (cs.drop 6).head? with
       | some c => c.isDigit
       | none => false))
    r

/- Match of SCALE_CLASS_PATTERN `<!--\s*_class:\s*([^>]*scale-\d+[^>]*)\s*-->`
   at the head of `cs`: the generic directive shape whose group contains a
   scale token. -/
def scaleDirectiveAt (cs : List Char) : Option (Nat × List Char) :=
  match classDirectiveAt cs with
  | some p => if hasScaleToken p.2 then some p else none
  | none => none

/- `SCALE_CLASS_PATTERN.search`: leftmost match, as (group 0, group 1). -/
def findScaleDirective (s : String) : Option (String × String) :=
  findMapSuffix
    (fun cs => (scaleDirectiveAt cs).map
      (fun p => (String.mk (cs.take p.1), String.mk p.2)))
    s.data

def hasScaleDirective (s : String) : Bool :=
  (findScaleDirective s).isSome

/- `re.search(r"<!--\s*_class:\s*([^>]*)\s*-->", s)`: leftmost match. -/
def findClassDirective (s : String) : Option (String × String) :=
  findMapSuffix
    (fun cs => (classDirectiveAt cs).map
      (fun p => (String.mk (cs.take p.1), String.mk p.2)))
    s.data

/- Python `str.replace(old, new)`: every non-overlapping occurrence, left to
   right.  The fuel (initially the list length) only makes the recursion
   structural; it never runs out. -/
def pyReplaceAux (p0 : Char) (prest rep : List Char) :
    Nat → List Char → List Char
  | _, [] => []
  | 0, cs => cs
  | fuel + 1, c :: rest =>
    if c = p0 ∧ rest.take prest.length = prest then
      rep ++ pyReplaceAux p0 prest rep (fuel - prest.length)
        (rest.drop prest.length)
    else c :: pyReplaceAux p0 prest rep fuel rest

def pyReplace (s old new : String) : String :=
  match old.data with
  | [] => s
  | p0 :: prest => String.mk (pyReplaceAux p0 prest new.data s.data.length s.data)

/- Python `"\n".join(lines)`. -/
def joinData (sep : Char) : List String → List Char
  | [] => []
  | [x] => x.data
  | x :: y :: rest => x.data ++ sep :: joinData sep (y :: rest)

def pyJoin (sep : Char) (l : List String) : String :=
  String.mk (joinData sep l)

/- preprocessor.py `inject_scale_class` (lines 1135-1168). -/
def inject_scale_class (slideContent : String) (scaleClass : String) : String :=
  if hasScaleDirective slideContent then slideContent
  else
    match findClassDirective slideContent with
    | some (g0, g1) =>
      pyReplace slideContent g0
        ("<!-- _class: " ++ g1 ++ " " ++ scaleClass ++ " -->")
    | none =>
      let lines := pySplit slideContent '\n'
      let insertIdx := (lines.findIdx? (fun l => pyStrip l ≠ "")).getD 0
      pyJoin '\n'
        (List.insertIdx insertIdx ("<!-- _class: " ++ scaleClass ++ " -->")
          lines)

/-
Content metrics analyzer (preprocessor.py `analyze_slide_content`,
lines 906-1087) and its regexes (lines 802-813).  The decimal float
constants are modelled exactly as rationals.  `callout_types` and the
`overflow_warnings` diagnostic strings are not used by any modelled
decision and are omitted from the metrics record.
-/

/- Case-insensitive literal head match (regex IGNORECASE; patterns are
   lowercase ASCII). -/
def headMatchesCI (pat : String) (cs : List Char) : Bool :=
  decide ((cs.take pat.length).map Char.toLower = pat.data)

/- `re.search(NO_AUTOSCALE_PATTERN)`: `<!--\s*no-autoscale\s*-->`,
   IGNORECASE. -/
def noAutoscaleAt (cs : List Char) : Bool :=
  headMatches "<!--" cs &&
    (let t := (cs.drop 4).dropWhile isPySpace
     headMatchesCI "no-autoscale" t &&
       headMatches "-->" ((t.drop 12).dropWhile isPySpace))

def hasNoAutoscale (s : String) : Bool :=
  anySuffix noAutoscaleAt s.data

/- Nondeterministic Kleene star over a character class: does some split of
   `cs` into a `p`-prefix and a remainder accepted by `k` exist? -/
def starThen (p : Char → Bool) (k : List Char → Bool) : List Char → Bool
  | [] => k []
  | c :: rest => k (c :: rest) || (p c && starThen p k rest)

/- Count the non-overlapping matches of `f` (Python `findall` / `str.count`
   semantics: scan left to right, resume after each match).  Fuel is the
   initial list length; each step consumes at least one character. -/
def countMatchesAux (f : List Char → Option Nat) : Nat → List Char → Nat
  | _, [] => 0
  | 0, _ => 0
  | fuel + 1, c :: rest =>
    match f (c :: rest) with
    | some len => 1 + countMatchesAux f fuel ((c :: rest).drop (max len 1))
    | none => countMatchesAux f fuel rest

/- Collect the group values of the non-overlapping matches of `f`. -/
def collectMatchesAux (f : List Char → Option (Nat × List Char)) :
    Nat → List Char → List (List Char)
  | _, [] => []
  | 0, _ => []
  | fuel + 1, c :: rest =>
    match f (c :: rest) with
    | some p => p.2 :: collectMatchesAux f fuel ((c :: rest).drop (max p.1 1))
    | none => collectMatchesAux f fuel rest

/- CALLOUT_BOX_PATTERN
   `<div\s+class="([^"]*(?:note|warning|tip|example|definition|important|callout)[^"]*)"`
   matched at the head of `cs`; returns the match length. -/
def calloutKeywords : List String :=
  ["note", "warning", "tip", "example", "definition", "important", "callout"]

def calloutAt (cs : List Char) : Option Nat :=
  if headMatches "<div" cs then
    let afterDiv := cs.drop 4
    let nsp := (afterDiv.takeWhile isPySpace).length
    if nsp = 0 then none
    else
      let t := afterDiv.drop nsp
      if headMatches "class=\"" t then
        let r := (t.drop 7).takeWhile (fun c => c ≠ '"')
        if (t.drop 7).length = r.length then none
        else if calloutKeywords.any (fun k => (strFind k r).isSome) then
          some (4 + nsp + 7 + r.length + 1)
        else none
      else none
  else none

def countCallouts (s : String) : Nat :=
  countMatchesAux calloutAt s.data.length s.data

/- FLEX_CONTAINER_PATTERN `<div[^>]*style="[^"]*display:\s*flex[^"]*"`
   as an existence test. -/
def flexQuoteClose : List Char → Bool :=
  starThen (fun c => c ≠ '"') (fun w =>
    match w.head? with
    | some c => c = '"'
    | none => false)

def flexAfterDisplay (v : List Char) : Bool :=
  headMatches "flex" v && flexQuoteClose (v.drop 4)

def flexAfterStyle (u : List Char) : Bool :=
  starThen (fun c => c ≠ '"') (fun v =>
    headMatches "display:" v && starThen isPySpace flexAfterDisplay (v.drop 8)) u

def flexAt (cs : List Char) : Bool :=
  headMatches "<div" cs &&
    starThen (fun c => c ≠ '>') (fun t =>
      headMatches "style=\"" t && flexAfterStyle (t.drop 7)) (cs.drop 4)

def hasFlexContainer (s : String) : Bool :=
  anySuffix flexAt s.data

/- CODE_BLOCK_PATTERN ```` ```(?:\w+)?\n(.*?)``` ```` (DOTALL, findall):
   at the head, the optional language word must be followed by a newline and
   the non-greedy body ends at the first closing fence. -/
def codeBlockAt (cs : List Char) : Option (Nat × List Char) :=
  if headMatches "```" cs then
    let t := cs.drop 3
    let w := (t.takeWhile isWordChar).length
    let t2 := t.drop w
    match t2.head? with
    | some c =>
      if c = '\n' then
        let body := t2.drop 1
        match strFind "```" body with
        | some i => some (3 + w + 1 + i + 3, body.take i)
        | none => none
      else none
    | none => none
  else none

def codeBlockGroups (s : String) : List (List Char) :=
  collectMatchesAux codeBlockAt s.data.length s.data

/- TABLE_PATTERN `^\|.*\|$` (MULTILINE, `.` not matching newlines): a line
   of at least two characters that starts and ends with `|`. -/
def isTableLine (l : List Char) : Bool :=
  decide (2 ≤ l.length) && decide (l.head? = some '|') &&
    decide (l.getLast? = some '|')

def countTableLines (s : String) : Nat :=
  ((splitChar '\n' s.data).filter isTableLine).length

/- The table-inside-callout heuristic (lines 969-989). -/
def tableCalloutBoxTypes : List String :=
  ["note-box", "warning-box", "tip-box", "example-box", "definition-box"]

def tableInCalloutFlag (s : String) (hasTable : Bool) (calloutCount : Nat) :
    Bool :=
  if hasTable && calloutCount > 0 then
    if (strFind "class=\"" s.data).isSome then
      tableCalloutBoxTypes.any (fun bt =>
        match strFind bt s.data with
        | some p =>
          let sect := (s.data.drop p).take 2000
          (strFind "|" sect).isSome && (strFind "---" sect).isSome
        | none => false)
    else false
  else false

/- EMOJI_FIGURE_PATTERN `<div\s+class="emoji-figure"` as an existence test,
   and `slide_content.count("emoji-col")`. -/
def emojiFigureAt (cs : List Char) : Bool :=
  headMatches "<div" cs &&
    (let afterDiv := cs.drop 4
     let nsp := (afterDiv.takeWhile isPySpace).length
     decide (1 ≤ nsp) && headMatches "class=\"emoji-figure\"" (afterDiv.drop nsp))

def hasEmojiFigure (s : String) : Bool :=
  anySuffix emojiFigureAt s.data

def countEmojiCols (s : String) : Nat :=
  countMatchesAux
    (fun cs => if headMatches "emoji-col" cs then some 9 else none)
    s.data.length s.data

/- FLOW_DIAGRAM_PATTERN ```` ```flow\n.*?``` ```` as an existence test. -/
def flowAt (cs : List Char) : Bool :=
  headMatches "```flow\n" cs && (strFind "```" (cs.drop 8)).isSome

def hasFlowDiagram (s : String) : Bool :=
  anySuffix flowAt s.data

/- Count the matches of an `^`-anchored pattern (MULTILINE findall): `f` is
   tried at line starts only; after a match the scan resumes past it, and a
   position is a line start iff the previous character was a newline. -/
def countAnchoredAux (f : List Char → Option Nat) :
    Nat → Bool → List Char → Nat
  | _, _, [] => 0
  | 0, _, _ => 0
  | fuel + 1, atStart, c :: rest =>
    if atStart then
      match f (c :: rest) with
      | some len =>
        1 + countAnchoredAux f fuel
          (decide ((c :: rest).get? (max len 1 - 1) = some '\n'))
          ((c :: rest).drop (max len 1))
      | none => countAnchoredAux f fuel (c = '\n') rest
    else countAnchoredAux f fuel (c = '\n') rest

/- `^[\s]*[-*+]\s` at a line start: maximal whitespace run (which may cross
   line breaks), a bullet character, one whitespace character. -/
def bulletAt (cs : List Char) : Option Nat :=
  let nsp := (cs.takeWhile isPySpace).length
  match cs.drop nsp with
  | c :: d :: _ =>
    if (c = '-' || c = '*' || c = '+') && isPySpace d then some (nsp + 2)
    else none
  | _ => none

/- `^[\s]*\d+\.\s` at a line start. -/
def numberedAt (cs : List Char) : Option Nat :=
  let nsp := (cs.takeWhile isPySpace).length
  let t := cs.drop nsp
  let nd := (t.takeWhile Char.isDigit).length
  if nd = 0 then none
  else
    match t.drop nd with
    | c :: d :: _ =>
      if c = '.' && isPySpace d then some (nsp + nd + 2) else none
    | _ => none

def countListItems (s : String) : Nat :=
  countAnchoredAux bulletAt s.data.length true s.data +
    countAnchoredAux numberedAt s.data.length true s.data

/- `re.sub(r"<[^>]+>", "", s)`: drop every `<...>` run with at least one
   character between the brackets. -/
def stripTagsAux : Nat → List Char → List Char
  | _, [] => []
  | 0, cs => cs
  | fuel + 1, c :: rest =>
    if c = '<' then
      match rest.findIdx? (fun d => d = '>') with
      | some k =>
        if 1 ≤ k then stripTagsAux fuel (rest.drop (k + 1))
        else c :: stripTagsAux fuel rest
      | none => c :: stripTagsAux fuel rest
    else c :: stripTagsAux fuel rest

/- `re.sub(r"```.*?```", "", s, DOTALL)`: drop every shortest fenced run. -/
def stripFencesAux : Nat → List Char → List Char
  | _, [] => []
  | 0, cs => cs
  | fuel + 1, c :: rest =>
    if headMatches "```" (c :: rest) then
      match strFind "```" ((c :: rest).drop 3) with
      | some i => stripFencesAux fuel ((c :: rest).drop (3 + i + 3))
      | none => c :: stripFencesAux fuel rest
    else c :: stripFencesAux fuel rest

def textLength (s : String) : Nat :=
  let noTags := stripTagsAux s.data.length s.data
  (stripFencesAux noTags.length noTags).length

/- `re.search(r"^#\s+", s, re.MULTILINE)`: existence of a line starting with
   `#` followed by a whitespace character. -/
def h1At (cs : List Char) : Bool :=
  match cs with
  | c :: d :: _ => c = '#' && isPySpace d
  | _ => false

def existsAnchoredAux (f : List Char → Bool) : Bool → List Char → Bool
  | _, [] => false
  | atStart, c :: rest =>
    (atStart && f (c :: rest)) || existsAnchoredAux f (c = '\n') rest

def hasH1 (s : String) : Bool :=
  existsAnchoredAux h1At true s.data

/- CONTENT_WEIGHTS (lines 816-833), exact rational values. -/
def CONTENT_WEIGHTS (key : String) : ℚ :=
  if key = "h1" then 2
  else if key = "h2" then 9/5
  else if key = "h3" then 3/2
  else if key = "paragraph_per_50_chars" then 2/5
  else if key = "list_item" then 7/10
  else if key = "callout_box_base" then 5/2
  else if key = "callout_content_per_50_chars" then 3/10
  else if key = "code_block_line" then 3/5
  else if key = "table_header" then 6/5
  else if key = "table_row" then 1
  else if key = "flex_container_overhead" then 1
  else if key = "emoji_figure" then 4
  else if key = "flow_diagram" then 3
  else if key = "table_in_callout_penalty" then 3/2
  else 0

def SLIDE_HEIGHT_BUDGET : ℚ := 20

/- SCALE_FACTORS (lines 840-852). -/
def SCALE_FACTORS : List (String × ℚ) :=
  [("scale-50", 2), ("scale-55", 9/5), ("scale-60", 167/100),
   ("scale-65", 77/50), ("scale-70", 143/100), ("scale-75", 133/100),
   ("scale-78", 32/25), ("scale-80", 5/4), ("scale-85", 59/50),
   ("scale-90", 111/100), ("scale-95", 21/20)]

/- Python `SCALE_FACTORS.get(key, default)`. -/
def scaleFactorsGet (key : String) (default : ℚ) : ℚ :=
  ((SCALE_FACTORS.find? (fun p => decide (p.1 = key))).map Prod.snd).getD default

structure SlideMetrics where
  has_scale_class : Bool
  existing_scale_class : Option String
  no_autoscale : Bool
  callout_count : Nat
  has_two_column : Bool
  has_code_block : Bool
  code_block_lines : Nat
  has_table : Bool
  table_rows : Nat
  table_in_callout : Bool
  has_emoji_figure : Bool
  emoji_columns : Nat
  has_flow_diagram : Bool
  list_items : Nat
  text_length : Nat
  estimated_height : ℚ
  deriving Repr, DecidableEq

/- The estimated-height model (lines 1012-1066). -/
def estimatedHeight (m : SlideMetrics) (h1 : Bool) : ℚ :=
  let calloutHeight0 := m.callout_count * CONTENT_WEIGHTS "callout_box_base"
  let listHeight0 := m.list_items * CONTENT_WEIGHTS "list_item"
  let twoColDiscount := m.has_two_column && decide (2 ≤ m.callout_count)
  let multiplier : ℚ := if m.callout_count = 2 then 11/20 else 9/20
  let calloutHeight := if twoColDiscount then calloutHeight0 * multiplier
    else calloutHeight0
  let listHeight := if twoColDiscount then listHeight0 * multiplier
    else listHeight0
  (if h1 then CONTENT_WEIGHTS "h1" else 0) +
  (if twoColDiscount then CONTENT_WEIGHTS "flex_container_overhead" else 0) +
  calloutHeight + listHeight +
  m.code_block_lines * CONTENT_WEIGHTS "code_block_line" +
  (if m.has_table then
    CONTENT_WEIGHTS "table_header" + m.table_rows * CONTENT_WEIGHTS "table_row"
   else 0) +
  (if m.table_in_callout then CONTENT_WEIGHTS "table_in_callout_penalty"
   else 0) +
  (m.text_length / 50) * CONTENT_WEIGHTS "paragraph_per_50_chars" +
  (if m.has_emoji_figure then CONTENT_WEIGHTS "emoji_figure" else 0) +
  (if m.has_flow_diagram then CONTENT_WEIGHTS "flow_diagram" else 0)

/- preprocessor.py `analyze_slide_content` (lines 906-1087). -/
def analyze_slide_content (slideContent : String) : SlideMetrics :=
  let scaleMatch := findScaleDirective slideContent
  let calloutCount := countCallouts slideContent
  let tableLineCount := countTableLines slideContent
  let hasTable := 0 < tableLineCount
  let codeGroups := codeBlockGroups slideContent
  let base : SlideMetrics := {
    has_scale_class := scaleMatch.isSome
    existing_scale_class := scaleMatch.map (fun p => pyStrip p.2)
    no_autoscale := hasNoAutoscale slideContent
    callout_count := calloutCount
    has_two_column := hasFlexContainer slideContent
    has_code_block := codeGroups ≠ []
    code_block_lines :=
      (codeGroups.map (fun g => (splitChar '\n' g).length)).sum
    has_table := hasTable
    table_rows := tableLineCount - 2
    table_in_callout := tableInCalloutFlag slideContent hasTable calloutCount
    has_emoji_figure := hasEmojiFigure slideContent
    emoji_columns := if hasEmojiFigure slideContent then
      countEmojiCols slideContent else 0
    has_flow_diagram := hasFlowDiagram slideContent
    list_items := countListItems slideContent
    text_length := textLength slideContent
    estimated_height := 0 }
  { base with estimated_height := estimatedHeight base (hasH1 slideContent) }

/- preprocessor.py `determine_scale_class` (lines 1090-1132). -/
def determine_scale_class (m : SlideMetrics) : Option String :=
  if m.has_scale_class || m.no_autoscale then none
  else if m.table_in_callout then some "scale-78"
  else if m.has_two_column && decide (2 ≤ m.callout_count) &&
      decide (SLIDE_HEIGHT_BUDGET * (9/10) < m.estimated_height) then
    some "scale-78"
  else if 3 ≤ m.callout_count then some "scale-80"
  else if SLIDE_HEIGHT_BUDGET * 2 < m.estimated_height then some "scale-50"
  else if SLIDE_HEIGHT_BUDGET * (17/10) < m.estimated_height then
    some "scale-60"
  else if SLIDE_HEIGHT_BUDGET * (7/5) < m.estimated_height then
    some "scale-70"
  else if SLIDE_HEIGHT_BUDGET * (6/5) < m.estimated_height then
    some "scale-78"
  else if SLIDE_HEIGHT_BUDGET * (11/10) < m.estimated_height then
    some "scale-80"
  else if SLIDE_HEIGHT_BUDGET < m.estimated_height then some "scale-90"
  else none

/- Python `int(...)`: truncation toward zero (`Int` division in Lean
   truncates toward zero, and a rational's denominator is positive). -/
def pyInt (q : ℚ) : ℤ :=
  Int.div q.num (q.den : ℤ)

/- The scale factor chosen by `compute_available_code_lines`
   (lines 862-868): an explicit scale class wins, else the auto-chosen one,
   else 1. -/
def codeScaleFactor (slideContent : String) : ℚ :=
  let m := analyze_slide_content slideContent
  if m.has_scale_class && (m.existing_scale_class.getD "") ≠ "" then
    scaleFactorsGet (m.existing_scale_class.getD "") 1
  else
    match determine_scale_class m with
    | some auto => scaleFactorsGet auto 1
    | none => 1

/- preprocessor.py `compute_available_code_lines` (lines 855-903). -/
def compute_available_code_lines (slideContent : String)
    (defaultMax : ℤ := 20) : ℤ :=
  let m := analyze_slide_content slideContent
  let scaleFactor := codeScaleFactor slideContent
  let effectiveBudget := SLIDE_HEIGHT_BUDGET * scaleFactor
  let calloutHeight0 := m.callout_count * CONTENT_WEIGHTS "callout_box_base"
  let listHeight0 := m.list_items * CONTENT_WEIGHTS "list_item"
  let twoColDiscount := m.has_two_column && decide (2 ≤ m.callout_count)
  let multiplier : ℚ := if m.callout_count = 2 then 11/20 else 9/20
  let otherHeight :=
    (if hasH1 slideContent then CONTENT_WEIGHTS "h1" else 0) +
    (if twoColDiscount then CONTENT_WEIGHTS "flex_container_overhead"
     else 0) +
    (if twoColDiscount then calloutHeight0 * multiplier else calloutHeight0) +
    (if twoColDiscount then listHeight0 * multiplier else listHeight0) +
    (if m.has_table then
      CONTENT_WEIGHTS "table_header" +
        m.table_rows * CONTENT_WEIGHTS "table_row"
     else 0) +
    (m.text_length / 50) * CONTENT_WEIGHTS "paragraph_per_50_chars" +
    (if m.has_emoji_figure then CONTENT_WEIGHTS "emoji_figure" else 0) +
    (if m.has_flow_diagram then CONTENT_WEIGHTS "flow_diagram" else 0)
  let availableHeight := effectiveBudget - otherHeight
  let availableLines :=
    pyInt (availableHeight / CONTENT_WEIGHTS "code_block_line" * (9/10))
  max 8 (min availableLines (pyInt (defaultMax * scaleFactor)))

/-
Poster preprocessor (poster_preprocessor.py `parse_ascii_layout`,
lines 65-125).  Raising `ValueError` is modelled by `Except.error`; the
interpolated detail of each message is abbreviated to its fixed prefix.
-/

structure LayoutArea where
  rowStart : Nat
  rowEnd : Nat
  colStart : Nat
  colEnd : Nat
  deriving Repr, DecidableEq

structure AsciiLayout where
  grid : List (List Char)
  labels : List Char
  areas : List (Char × LayoutArea)
  rows : Nat
  cols : Nat
  deriving Repr, DecidableEq

/- Python `sorted` on the distinct region labels (insertion sort, so that
   concrete layouts evaluate inside the kernel). -/
def insertSorted (a : Char) : List Char → List Char
  | [] => [a]
  | b :: rest => if a ≤ b then a :: b :: rest else b :: insertSorted a rest

def sortChars (l : List Char) : List Char :=
  l.foldr insertSorted []

def listMin (l : List Nat) : Nat :=
  match l with
  | [] => 0
  | x :: xs => xs.foldl min x

def listMax (l : List Nat) : Nat :=
  match l with
  | [] => 0
  | x :: xs => xs.foldl max x

/- The coordinates of `ch` in the grid, row-major (the insertion order of
   the Python `coords` dict values). -/
def coordsOf (grid : List (List Char)) (ch : Char) : List (Nat × Nat) :=
  grid.enum.bind (fun rr =>
    rr.2.enum.filterMap (fun cc =>
      if cc.2 = ch then some (rr.1, cc.1) else none))

/- Bounding box and rectangularity check for one region label. -/
def regionArea (grid : List (List Char)) (ch : Char) :
    Except String LayoutArea :=
  let points := coordsOf grid ch
  let rowsSet := points.map Prod.fst
  let colsSet := points.map Prod.snd
  let minR := listMin rowsSet
  let maxR := listMax rowsSet
  let minC := listMin colsSet
  let maxC := listMax colsSet
  let expectedArea := (maxR - minR + 1) * (maxC - minC + 1)
  if points.length ≠ expectedArea then
    Except.error "Region is not rectangular"
  else
    Except.ok { rowStart := minR, rowEnd := maxR,
                colStart := minC, colEnd := maxC }

/- poster_preprocessor.py `parse_ascii_layout`. -/
def parse_ascii_layout (layoutText : String) : Except String AsciiLayout :=
  let lines := ((pySplit (pyStrip layoutText) '\n').map pyStrip).filter
    (fun l => l ≠ "")
  match lines with
  | [] => Except.error "Empty layout"
  | _ =>
    if 1 < ((lines.map String.length).dedup).length then
      Except.error "Ragged rows"
    else
      let grid := lines.map String.data
      let chars := sortChars ((grid.join.filter (fun c => c ≠ '.')).dedup)
      (chars.foldlM
        (fun acc ch => (regionArea grid ch).map (fun a => acc ++ [(ch, a)]))
        []).map
        (fun areas =>
          { grid := grid, labels := chars, areas := areas,
            rows := grid.length, cols := (grid.headD []).length })

/-
Theorems.  General lemmas first, then one theorem per specification claim.
-/

theorem buildChunksAux_flatten {α : Type} :
    ∀ (fuel : Nat) (xs : List α) (m : Nat), 0 < m → xs.length ≤ fuel →
      (buildChunksAux fuel xs m).flatten = xs := by
  intro fuel
  induction fuel with
  | zero =>
    intro xs m _ hlen
    cases xs with
    | nil => simp [buildChunksAux]
    | cons x rest => simp at hlen
  | succ fuel ih =>
    intro xs m hm hlen
    cases xs with
    | nil => simp [buildChunksAux]
    | cons x rest =>
      simp only [buildChunksAux, List.flatten_cons]
      rw [ih ((x :: rest).drop m) m hm]
      · exact List.take_append_drop m (x :: rest)
      · have hx : (x :: rest).length ≤ fuel + 1 := hlen
        have hdrop : ((x :: rest).drop m).length = (x :: rest).length - m :=
          List.length_drop m (x :: rest)
        omega

theorem buildChunks_flatten {α : Type} (xs : List α) (firstMax contMax : Nat)
    (hc : 0 < contMax) : (buildChunks xs firstMax contMax).flatten = xs := by
  cases xs with
  | nil => simp [buildChunks]
  | cons x rest =>
    simp only [buildChunks, List.flatten_cons]
    rw [buildChunksAux_flatten _ _ _ hc]
    · exact List.take_append_drop _ _
    · simp [List.length_drop]

theorem buildChunksAux_mem_length {α : Type} :
    ∀ (fuel : Nat) (xs : List α) (m : Nat) (chunk : List α),
      chunk ∈ buildChunksAux fuel xs m → chunk.length ≤ m := by
  intro fuel
  induction fuel with
  | zero =>
    intro xs m chunk h
    cases xs <;> simp [buildChunksAux] at h
  | succ fuel ih =>
    intro xs m chunk h
    cases xs with
    | nil => simp [buildChunksAux] at h
    | cons x rest =>
      simp only [buildChunksAux, List.mem_cons] at h
      rcases h with h | h
      · subst h
        simpa using List.length_take_le m (x :: rest)
      · exact ih _ _ _ h

theorem buildChunks_head_length {α : Type} (xs : List α)
    (firstMax contMax : Nat) :
    ((buildChunks xs firstMax contMax).headD []).length ≤ firstMax := by
  cases xs with
  | nil => simp [buildChunks]
  | cons x rest =>
    simp only [buildChunks, List.headD_cons]
    simpa using List.length_take_le firstMax (x :: rest)

theorem buildChunks_tail_length {α : Type} (xs : List α)
    (firstMax contMax : Nat) (chunk : List α)
    (h : chunk ∈ (buildChunks xs firstMax contMax).tail) :
    chunk.length ≤ contMax := by
  cases xs with
  | nil => simp [buildChunks] at h
  | cons x rest =>
    simp only [buildChunks, List.tail_cons] at h
    exact buildChunksAux_mem_length _ _ _ _ h

theorem codeChunkLineNums_concat :
    ∀ (chunks : List (List String)) (cum : Nat),
      codeChunkLineNums cum chunks =
        List.range' (cum + 1) chunks.flatten.length := by
  intro chunks
  induction chunks with
  | nil => intro cum; simp [codeChunkLineNums]
  | cons chunk rest ih =>
    intro cum
    simp only [codeChunkLineNums, List.flatten_cons, List.length_append]
    rw [ih (cum + chunk.length)]
    have h1 : chunk.enum.map (fun q => cum + 1 + q.1) =
        List.range' (cum + 1) chunk.length := by
      have he : (fun (q : Nat × String) => cum + 1 + q.1) =
          (fun i => cum + 1 + i) ∘ Prod.fst := rfl
      rw [he, ← List.map_map, List.enum_map_fst, List.range'_eq_map_range]
    rw [h1]
    have h2 : cum + chunk.length + 1 = cum + 1 + 1 * chunk.length := by ring
    rw [h2, List.range'_append, Nat.add_comm rest.flatten.length chunk.length]

/-- C1: when a buffered code block of `N` lines exceeds the effective
first-chunk budget (with a positive continuation budget, splitting enabled),
the chunks emitted by the splitter partition the `N` buffered lines exactly,
the first chunk has at most `firstMax` lines, every continuation chunk has at
most `contMax` lines, and the absolute line numbers rendered into the
`line-num` spans, concatenated across chunks in emission order, are exactly
the sequence `1..N` with no gaps or repeats. -/
theorem code_split_partition_and_line_numbers
    (buffer : List String) (firstMax contMax : Nat)
    (hc : 0 < contMax) (hs : firstMax < buffer.length) :
    (buildChunks buffer firstMax contMax).flatten = buffer ∧
    ((buildChunks buffer firstMax contMax).headD []).length ≤ firstMax ∧
    (∀ chunk ∈ (buildChunks buffer firstMax contMax).tail,
      chunk.length ≤ contMax) ∧
    codeChunkLineNums 0 (buildChunks buffer firstMax contMax) =
      List.range' 1 buffer.length := by
  refine ⟨buildChunks_flatten _ _ _ hc, buildChunks_head_length _ _ _,
    fun chunk hm => buildChunks_tail_length _ _ _ _ hm, ?_⟩
  rw [codeChunkLineNums_concat, buildChunks_flatten _ _ _ hc]

/-- Witness for C1 at a concrete five-line code block split 2/2/1. -/
theorem code_split_partition_and_line_numbers_witness :
    (0 < 2 ∧ 2 < (["a", "b", "c", "d", "e"] : List String).length) ∧
    ((buildChunks (["a", "b", "c", "d", "e"] : List String) 2 2).flatten =
        ["a", "b", "c", "d", "e"] ∧
      ((buildChunks (["a", "b", "c", "d", "e"] : List String) 2 2).headD
          []).length ≤ 2 ∧
      (∀ chunk ∈ (buildChunks (["a", "b", "c", "d", "e"] : List String)
          2 2).tail, chunk.length ≤ 2) ∧
      codeChunkLineNums 0
          (buildChunks (["a", "b", "c", "d", "e"] : List String) 2 2) =
        List.range' 1 (["a", "b", "c", "d", "e"] : List String).length) :=
  ⟨⟨by decide, by decide⟩,
    code_split_partition_and_line_numbers ["a", "b", "c", "d", "e"] 2 2
      (by decide) (by decide)⟩

/-- C2: chunk position determines the continuation indicator exactly — first
chunk of a multi-chunk split gets "continued...", middle chunks get
"...continued...", the last chunk gets "...continued", and a single chunk gets
none; concretely, a table of 10 data rows with first and continuation budget 4
splits into chunks of 4, 4 and 2 data rows, and the indicator lines appear in
the emitted output exactly once each, in that order. -/
theorem table_split_continuation_indicators :
    (tableIndicator true false =
        ["", "<div class=\"table-continued-indicator\">continued...</div>"] ∧
      tableIndicator false false =
        ["", "<div class=\"table-continued-indicator\">...continued...</div>"] ∧
      tableIndicator false true =
        ["", "<div class=\"table-continued-indicator-last\">...continued</div>"] ∧
      tableIndicator true true = []) ∧
    buildChunks ["| r1 |", "| r2 |", "| r3 |", "| r4 |", "| r5 |", "| r6 |",
        "| r7 |", "| r8 |", "| r9 |", "| r10 |"] 4 4 =
      [["| r1 |", "| r2 |", "| r3 |", "| r4 |"],
       ["| r5 |", "| r6 |", "| r7 |", "| r8 |"],
       ["| r9 |", "| r10 |"]] ∧
    (split_table ["| H |", "| --- |", "| r1 |", "| r2 |", "| r3 |", "| r4 |",
        "| r5 |", "| r6 |", "| r7 |", "| r8 |", "| r9 |", "| r10 |"] 4 "## T"
        none none).filter
      (fun l =>
        decide (l = "<div class=\"table-continued-indicator\">continued...</div>") ||
        decide (l = "<div class=\"table-continued-indicator\">...continued...</div>") ||
        decide (l = "<div class=\"table-continued-indicator-last\">...continued</div>")) =
      ["<div class=\"table-continued-indicator\">continued...</div>",
       "<div class=\"table-continued-indicator\">...continued...</div>",
       "<div class=\"table-continued-indicator-last\">...continued</div>"] := by
  decide

theorem headMatches_pipe_not_other (cs : List Char)
    (h : headMatches "|" cs = true) : headMatches "<table" cs = false := by
  cases cs with
  | nil => simp [headMatches] at h
  | cons c rest =>
    have hc : c = '|' := by simpa [headMatches, List.take] using h
    subst hc
    simp [headMatches, List.take]

/-- C3 counterexample: a table whose data-row count (2) is at most the row
budget (6) passes through as its original markdown lines, so the processed
output for it contains no `<table>` element at all — contradicting the claim
that the output is a single `<table>` element. -/
theorem small_table_passthrough_counterexample :
    processTableBuffer ["| H |", "| --- |", "| a |", "| b |"] 6 6 false ""
        none = ["| H |", "| --- |", "| a |", "| b |"] ∧
    ∀ l ∈ processTableBuffer ["| H |", "| --- |", "| a |", "| b |"] 6 6 false
        "" none, strHasPre l "<table" = false := by
  decide

/-- C3 (amended): for every buffered table whose data-row count is at most
the effective row budget, the processed output is the original markdown
table lines unchanged (one table, rendered downstream as a single table):
no emitted line is a `<table ...>` element — in particular none carries the
`split-table` or `table-continuation` class — and no emitted line is a
continuation-indicator marker. -/
theorem small_table_passthrough (tableLines : List String)
    (firstMax contMax : Nat) (title : String) (box : Option String)
    (t : MarkdownTable)
    (hp : parse_markdown_table tableLines = some t)
    (hle : t.dataRows.length ≤ firstMax)
    (hshape : ∀ l ∈ tableLines, strHasPre (pyStrip l) "|" = true) :
    processTableBuffer tableLines firstMax contMax false title box =
      tableLines ∧
    ∀ l ∈ processTableBuffer tableLines firstMax contMax false title box,
      strHasPre (pyStrip l) "<table" = false ∧
      pyStrip l ≠ "<div class=\"table-continued-indicator\">continued...</div>" ∧
      pyStrip l ≠ "<div class=\"table-continued-indicator\">...continued...</div>" ∧
      pyStrip l ≠ "<div class=\"table-continued-indicator-last\">...continued</div>" := by
  have hout : processTableBuffer tableLines firstMax contMax false title box =
      tableLines := by
    unfold processTableBuffer
    rw [hp]
    simp [Nat.not_lt.mpr hle]
  refine ⟨hout, ?_⟩
  rw [hout]
  intro l hl
  have hpipe := hshape l hl
  refine ⟨headMatches_pipe_not_other _ hpipe, ?_, ?_, ?_⟩ <;>
    (intro heq; rw [heq] at hpipe; exact absurd hpipe (by decide))

/-- Witness for C3's amended theorem at a concrete two-row table under a
budget of 6. -/
theorem small_table_passthrough_witness :
    processTableBuffer ["| H |", "| --- |", "| a |", "| b |"] 6 6 false "x"
        none = ["| H |", "| --- |", "| a |", "| b |"] ∧
    ∀ l ∈ processTableBuffer ["| H |", "| --- |", "| a |", "| b |"] 6 6 false
        "x" none,
      strHasPre (pyStrip l) "<table" = false ∧
      pyStrip l ≠ "<div class=\"table-continued-indicator\">continued...</div>" ∧
      pyStrip l ≠ "<div class=\"table-continued-indicator\">...continued...</div>" ∧
      pyStrip l ≠ "<div class=\"table-continued-indicator-last\">...continued</div>" :=
  small_table_passthrough ["| H |", "| --- |", "| a |", "| b |"] 6 6 "x" none
    { header := "| H |", separator := "| --- |",
      dataRows := ["| a |", "| b |"], columnCount := 1 }
    (by decide) (by decide) (by decide)

/-- C4: per-column alignment is derived from the separator row exactly as
claimed (`:---:` center, `---:` right, `:---` left, default center), but the
generated header cells are styled with that per-column alignment too — for a
right-aligned column the `<th>` is emitted with `text-align: right`, never
restyled to center — contradicting the claim (and the source's own
"headers stay centered" comment) that header cells are always centered. -/
theorem generate_table_html_header_alignment_bug :
    (alignOfSepPart ":---:" = "center" ∧ alignOfSepPart "---:" = "right" ∧
      alignOfSepPart ":---" = "left" ∧ alignOfSepPart "---" = "center") ∧
    generate_table_html "| A |" "| ---: |" ["| x |"] false false ∅ =
      ["<table>", "<thead>", "<tr>", "<th style=\"text-align: right\">A</th>",
       "</tr>", "</thead>", "<tbody>", "<tr>",
       "<td style=\"text-align: right\">x</td>", "</tr>", "</tbody>",
       "</table>"] ∧
    "<th style=\"text-align: right\">A</th>" ∈
      generate_table_html "| A |" "| ---: |" ["| x |"] false false ∅ ∧
    "<th style=\"text-align: center\">A</th>" ∉
      generate_table_html "| A |" "| ---: |" ["| x |"] false false ∅ := by
  decide

/-- C9: parsing the ASCII layout "AABB\nAABB" succeeds with a 2-row, 4-column
grid, region labels exactly A and B, bounds rows 0-1 / cols 0-1 for A and
rows 0-1 / cols 2-3 for B; parsing the non-rectangular layout "AB\nBA" fails
validation because a region's cell count must equal its bounding-box area. -/
theorem parse_ascii_layout_concrete :
    parse_ascii_layout "AABB\nAABB" = Except.ok
      { grid := [['A', 'A', 'B', 'B'], ['A', 'A', 'B', 'B']],
        labels := ['A', 'B'],
        areas := [('A', { rowStart := 0, rowEnd := 1, colStart := 0,
                          colEnd := 1 }),
                  ('B', { rowStart := 0, rowEnd := 1, colStart := 2,
                          colEnd := 3 })],
        rows := 2, cols := 4 } ∧
    parse_ascii_layout "AB\nBA" = Except.error "Region is not rectangular" :=
  ⟨rfl, rfl⟩

set_option maxHeartbeats 1000000 in
/-- C10: every non-null result of `determine_scale_class` is one of scale-50,
scale-60, scale-70, scale-78, scale-80, scale-90, and each of these is a key
of the SCALE_FACTORS table, so an auto-chosen scale class always has a
defined space multiplier. -/
theorem determine_scale_class_in_scale_factors (m : SlideMetrics) (r : String)
    (h : determine_scale_class m = some r) :
    r ∈ ["scale-50", "scale-60", "scale-70", "scale-78", "scale-80",
      "scale-90"] ∧
    (SCALE_FACTORS.find? (fun p => decide (p.1 = r))).isSome = true := by
  unfold determine_scale_class at h
  split_ifs at h <;>
    first
    | exact Option.noConfusion h
    | (injection h with hr; subst hr; exact ⟨by decide, by decide⟩)

/-- Witness for C10: a slide with three callout boxes and no other content
is assigned scale-80, a SCALE_FACTORS key. -/
theorem determine_scale_class_in_scale_factors_witness :
    "scale-80" ∈ ["scale-50", "scale-60", "scale-70", "scale-78", "scale-80",
      "scale-90"] ∧
    (SCALE_FACTORS.find? (fun p => decide (p.1 = "scale-80"))).isSome =
      true :=
  determine_scale_class_in_scale_factors
    { has_scale_class := false, existing_scale_class := none,
      no_autoscale := false, callout_count := 3, has_two_column := false,
      has_code_block := false, code_block_lines := 0, has_table := false,
      table_rows := 0, table_in_callout := false, has_emoji_figure := false,
      emoji_columns := 0, has_flow_diagram := false, list_items := 0,
      text_length := 0, estimated_height := 0 }
    "scale-80" (by decide)

theorem foldl_insert_mem (l : List (ℕ × String)) (acc : Finset ℕ) (i : ℕ) :
    i ∈ l.foldl (fun a p => insert p.1 a) acc ↔
      i ∈ acc ∨ ∃ p ∈ l, p.1 = i := by
  induction l generalizing acc with
  | nil => simp
  | cons x xs ih =>
    simp only [List.foldl_cons, ih, Finset.mem_insert, List.mem_cons]
    constructor
    · rintro (⟨h | h⟩ | h)
      · exact Or.inr ⟨x, Or.inl rfl, h.symm⟩
      · exact Or.inl h
      · rcases h with ⟨p, hp, hpi⟩
        exact Or.inr ⟨p, Or.inr hp, hpi⟩
    · rintro (h | ⟨p, hp | hp, hpi⟩)
      · exact Or.inl (Or.inr h)
      · subst hp
        exact Or.inl (Or.inl hpi.symm)
      · exact Or.inr ⟨p, hp, hpi⟩

theorem detect_long_columns_foldl (threshold i : ℕ) :
    ∀ (rows : List String) (acc : Finset ℕ),
      i ∈ rows.foldl
          (fun acc row =>
            ((rowCells row).enum.filter
              (fun p => threshold < p.2.length)).foldl
              (fun a p => insert p.1 a) acc)
          acc ↔
        i ∈ acc ∨ ∃ row ∈ rows, ∃ cell : String,
          (rowCells row)[i]? = some cell ∧ threshold < cell.length := by
  intro rows
  induction rows with
  | nil => intro acc; simp
  | cons r rs ih =>
    intro acc
    simp only [List.foldl_cons]
    rw [ih, foldl_insert_mem]
    constructor
    · rintro (⟨h | ⟨p, hp, hpi⟩⟩ | ⟨row, hrow, cell, hcell, hlen⟩)
      · exact Or.inl h
      · rw [List.mem_filter] at hp
        refine Or.inr ⟨r, List.mem_cons_self _ _, p.2, ?_, by simpa using hp.2⟩
        have := List.mem_enum_iff_getElem?.mp hp.1
        rwa [hpi] at this
      · exact Or.inr ⟨row, List.mem_cons_of_mem _ hrow, cell, hcell, hlen⟩
    · rintro (h | ⟨row, hrow, cell, hcell, hlen⟩)
      · exact Or.inl (Or.inl h)
      · rcases List.mem_cons.mp hrow with hr | hr
        · subst hr
          refine Or.inl (Or.inr ⟨(i, cell), ?_, rfl⟩)
          rw [List.mem_filter]
          exact ⟨List.mem_enum_iff_getElem?.mpr hcell, by simpa using hlen⟩
        · exact Or.inr ⟨row, hr, cell, hcell, hlen⟩

theorem detect_long_columns_mem (rows : List String) (threshold i : ℕ) :
    i ∈ detect_long_columns rows threshold ↔
      ∃ row ∈ rows, ∃ cell : String,
        (rowCells row)[i]? = some cell ∧ threshold < cell.length := by
  unfold detect_long_columns
  rw [detect_long_columns_foldl]
  simp

/-- C5: for every split table, the forced-left-alignment ("long") column set
passed to each chunk's HTML generation is one and the same set, computed once
over all data rows of the whole table; and an index `i` belongs to it iff
some data row has a (non-empty, trimmed) cell at position `i` longer than the
25-character threshold. -/
theorem split_table_uniform_long_columns
    (tableLines : List String) (maxRows : Nat) (title : String)
    (contM : Option Nat) (box : Option String) (t : MarkdownTable)
    (hp : parse_markdown_table tableLines = some t)
    (hgt : maxRows < t.dataRows.length) :
    split_table tableLines maxRows title contM box =
      (buildChunks t.dataRows maxRows (contM.getD maxRows)).enum.bind
        (emitTableChunk t.header t.separator title box
          (buildChunks t.dataRows maxRows (contM.getD maxRows)).length
          (detect_long_columns t.dataRows 25)) ∧
    ∀ i : ℕ, i ∈ detect_long_columns t.dataRows 25 ↔
      ∃ row ∈ t.dataRows, ∃ cell : String,
        (rowCells row)[i]? = some cell ∧ 25 < cell.length := by
  constructor
  · unfold split_table
    rw [hp]
    simp [Nat.not_le.mpr hgt]
  · intro i
    exact detect_long_columns_mem t.dataRows 25 i

/-- Witness for C5 at a concrete table with one over-threshold cell, split
with a row budget of 1. -/
theorem split_table_uniform_long_columns_witness :
    (split_table ["| H |", "| --- |",
        "| aaaaaaaaaaaaaaaaaaaaaaaaaaaa |", "| b |"] 1 "" none none =
      (buildChunks ["| aaaaaaaaaaaaaaaaaaaaaaaaaaaa |", "| b |"] 1 1).enum.bind
        (emitTableChunk "| H |" "| --- |" "" none
          (buildChunks ["| aaaaaaaaaaaaaaaaaaaaaaaaaaaa |", "| b |"] 1
            1).length
          (detect_long_columns ["| aaaaaaaaaaaaaaaaaaaaaaaaaaaa |", "| b |"]
            25))) ∧
    ∀ i : ℕ,
      i ∈ detect_long_columns ["| aaaaaaaaaaaaaaaaaaaaaaaaaaaa |", "| b |"]
          25 ↔
        ∃ row ∈ ["| aaaaaaaaaaaaaaaaaaaaaaaaaaaa |", "| b |"],
          ∃ cell : String,
            (rowCells row)[i]? = some cell ∧ 25 < cell.length :=
  split_table_uniform_long_columns ["| H |", "| --- |",
      "| aaaaaaaaaaaaaaaaaaaaaaaaaaaa |", "| b |"] 1 "" none none
    { header := "| H |", separator := "| --- |",
      dataRows := ["| aaaaaaaaaaaaaaaaaaaaaaaaaaaa |", "| b |"],
      columnCount := 1 }
    (by decide) (by decide)

theorem detectGo_sound :
    ∀ (steps depth idx : Nat) (lines : List String) (d : String),
      detectGo lines depth idx steps = some d →
      (strHasPre d "<div " = true ∨ d = "<div>") ∧ isBoxClassLine d = true ∧
      ∃ p, idx + 1 - steps ≤ p ∧ p ≤ idx ∧
        pyStrip ((lines.get? p).getD "") = d ∧
        ∀ j, p ≤ j → j ≤ idx → pyStrip ((lines.get? j).getD "") ≠ "---" := by
  intro steps
  induction steps with
  | zero =>
    intro depth idx lines d h
    simp [detectGo] at h
  | succ steps ih =>
    intro depth idx lines d h
    simp only [detectGo] at h
    by_cases h1 : pyStrip ((lines.get? idx).getD "") = "---"
    · rw [if_pos h1] at h
      exact Option.noConfusion h
    · rw [if_neg h1] at h
      have extend :
          (∃ p, idx - 1 + 1 - steps ≤ p ∧ p ≤ idx - 1 ∧
            pyStrip ((lines.get? p).getD "") = d ∧
            ∀ j, p ≤ j → j ≤ idx - 1 →
              pyStrip ((lines.get? j).getD "") ≠ "---") →
          ∃ p, idx + 1 - (steps + 1) ≤ p ∧ p ≤ idx ∧
            pyStrip ((lines.get? p).getD "") = d ∧
            ∀ j, p ≤ j → j ≤ idx →
              pyStrip ((lines.get? j).getD "") ≠ "---" := by
        rintro ⟨p, hp1, hp2, hp3, hp4⟩
        refine ⟨p, by omega, by omega, hp3, ?_⟩
        intro j hj1 hj2
        by_cases hji : j = idx
        · rw [hji]
          exact h1
        · exact hp4 j hj1 (by omega)
      by_cases h2 : pyStrip ((lines.get? idx).getD "") = "</div>"
      · rw [if_pos h2] at h
        obtain ⟨ha, hb, hex⟩ := ih (depth + 1) (idx - 1) lines d h
        exact ⟨ha, hb, extend hex⟩
      · rw [if_neg h2] at h
        by_cases h3 : (strHasPre (pyStrip ((lines.get? idx).getD "")) "<div " ||
            decide (pyStrip ((lines.get? idx).getD "") = "<div>")) = true
        · rw [if_pos h3] at h
          by_cases h4 : depth > 0
          · rw [if_pos h4] at h
            obtain ⟨ha, hb, hex⟩ := ih (depth - 1) (idx - 1) lines d h
            exact ⟨ha, hb, extend hex⟩
          · rw [if_neg h4] at h
            by_cases h5 : isBoxClassLine (pyStrip ((lines.get? idx).getD "")) =
                true
            · rw [if_pos h5] at h
              have hd : d = pyStrip ((lines.get? idx).getD "") :=
                (Option.some.injEq _ _ ▸ h).symm
              subst hd
              have h3p : strHasPre (pyStrip ((lines.get? idx).getD ""))
                  "<div " = true ∨
                  pyStrip ((lines.get? idx).getD "") = "<div>" := by
                simpa [Bool.or_eq_true, decide_eq_true_eq] using h3
              refine ⟨h3p, h5, idx, by omega, le_refl idx, rfl, ?_⟩
              intro j hj1 hj2
              have : j = idx := le_antisymm hj2 hj1
              rw [this]
              exact h1
            · rw [if_neg h5] at h
              exact Option.noConfusion h
        · rw [if_neg h3] at h
          obtain ⟨ha, hb, hex⟩ := ih depth (idx - 1) lines d h
          exact ⟨ha, hb, extend hex⟩

/-- C7: the enclosing-box detector scans a bounded backward window and, when
it returns a div line, that line is an opening `<div` whose class matches the
`*-box` pattern, it is the stripped content of an emitted line at most 29
positions back, and no slide-separator line `---` lies between it and the
scan start; moreover the detector returns null immediately when the line just
above the scan start is a slide separator.  (A non-box open div, or a
separator, makes it return null rather than guess.) -/
theorem detect_enclosing_box_sound :
    (∀ (lines : List String) (searchFromIdx : Nat) (d : String),
      detect_enclosing_box lines searchFromIdx = some d →
      (strHasPre d "<div " = true ∨ d = "<div>") ∧ isBoxClassLine d = true ∧
      ∃ p, p < searchFromIdx ∧ searchFromIdx ≤ p + 29 ∧
        pyStrip ((lines.get? p).getD "") = d ∧
        ∀ j, p ≤ j → j < searchFromIdx →
          pyStrip ((lines.get? j).getD "") ≠ "---") ∧
    (∀ (lines : List String) (searchFromIdx : Nat), 0 < searchFromIdx →
      pyStrip ((lines.get? (searchFromIdx - 1)).getD "") = "---" →
      detect_enclosing_box lines searchFromIdx = none) := by
  constructor
  · intro lines searchFromIdx d h
    unfold detect_enclosing_box at h
    rcases Nat.eq_zero_or_pos searchFromIdx with h0 | h0
    · rw [h0] at h
      simp [detectGo] at h
    · obtain ⟨ha, hb, p, hp1, hp2, hp3, hp4⟩ := detectGo_sound _ _ _ _ _ h
      have hmin : Nat.min searchFromIdx 29 ≤ 29 := Nat.min_le_right _ _
      have hmin2 : Nat.min searchFromIdx 29 ≤ searchFromIdx :=
        Nat.min_le_left _ _
      refine ⟨ha, hb, p, by omega, by omega, hp3, ?_⟩
      intro j hj1 hj2
      exact hp4 j hj1 (by omega)
  · intro lines searchFromIdx h0 hsep
    unfold detect_enclosing_box
    have hpos : 0 < min searchFromIdx 29 := lt_min h0 (by norm_num)
    obtain ⟨s, hs⟩ : ∃ s, min searchFromIdx 29 = s + 1 :=
      ⟨min searchFromIdx 29 - 1, by omega⟩
    rw [hs]
    simp only [detectGo]
    rw [if_pos hsep]

/-- Witness for C7: a two-line buffer whose first line opens a note box. -/
theorem detect_enclosing_box_sound_witness :
    (strHasPre "<div class=\"note-box\">" "<div " = true ∨
      "<div class=\"note-box\">" = "<div>") ∧
    isBoxClassLine "<div class=\"note-box\">" = true ∧
    ∃ p, p < 2 ∧ 2 ≤ p + 29 ∧
      pyStrip ((["<div class=\"note-box\">", "text"].get? p).getD "") =
        "<div class=\"note-box\">" ∧
      ∀ j, p ≤ j → j < 2 →
        pyStrip ((["<div class=\"note-box\">", "text"].get? j).getD "") ≠
          "---" :=
  detect_enclosing_box_sound.1 ["<div class=\"note-box\">", "text"] 2
    "<div class=\"note-box\">" (by decide)

theorem analyze_slide_content_empty : analyze_slide_content "" = {
    has_scale_class := false, existing_scale_class := none,
    no_autoscale := false, callout_count := 0, has_two_column := false,
    has_code_block := false, code_block_lines := 0, has_table := false,
    table_rows := 0, table_in_callout := false, has_emoji_figure := false,
    emoji_columns := 0, has_flow_diagram := false, list_items := 0,
    text_length := 0, estimated_height := 0 } := by
  simp [analyze_slide_content, findScaleDirective, findMapSuffix,
    scaleDirectiveAt, classDirectiveAt, headMatches, countCallouts,
    countMatchesAux, countTableLines, splitChar, isTableLine, codeBlockGroups,
    collectMatchesAux, hasNoAutoscale, anySuffix, noAutoscaleAt,
    hasFlexContainer, flexAt, tableInCalloutFlag, hasEmojiFigure, emojiFigureAt,
    countEmojiCols, hasFlowDiagram, flowAt, countListItems, countAnchoredAux,
    textLength, stripTagsAux, stripFencesAux, estimatedHeight, CONTENT_WEIGHTS,
    hasH1, existsAnchoredAux]

theorem hasH1_empty : hasH1 "" = false := by
  simp [hasH1, existsAnchoredAux]

/-- C8 (amended): for every slide text and every default maximum, the result
of `compute_available_code_lines` is at least the floor of 8 lines and at
most `max 8 (int (default_max * scale_factor))`; the claimed upper bound
`int (default_max * scale_factor)` itself holds exactly when it is at least
the floor of 8. -/
theorem compute_available_code_lines_bounds (s : String) (dm : ℤ) :
    8 ≤ compute_available_code_lines s dm ∧
    compute_available_code_lines s dm ≤
      max 8 (pyInt ((dm : ℚ) * codeScaleFactor s)) := by
  unfold compute_available_code_lines
  exact ⟨le_max_left _ _, max_le_max (le_refl _) (min_le_right _ _)⟩

/-- C8 counterexample: on the empty slide with `default_max = 5` the chosen
scale factor is 1 and the claimed ceiling `int(5 * 1) = 5`, but the function
returns the floor value 8, which exceeds that ceiling — refuting
`8 <= result <= int(default_max * scale_factor)` as stated. -/
theorem compute_available_code_lines_ceiling_counterexample :
    compute_available_code_lines "" 5 = 8 ∧ codeScaleFactor "" = 1 ∧
    pyInt ((5 : ℚ) * codeScaleFactor "") = 5 ∧
    ¬ (compute_available_code_lines "" 5 ≤
        pyInt ((5 : ℚ) * codeScaleFactor "")) := by
  have h1 : codeScaleFactor "" = 1 := by
    rw [codeScaleFactor, analyze_slide_content_empty]
    norm_num [determine_scale_class, SLIDE_HEIGHT_BUDGET]
  have h3 : pyInt ((5 : ℚ) * codeScaleFactor "") = 5 := by
    rw [h1, mul_one]
    norm_num [pyInt]
  have h2 : compute_available_code_lines "" 5 = 8 := by
    rw [compute_available_code_lines, analyze_slide_content_empty, h1]
    norm_num [hasH1_empty, CONTENT_WEIGHTS, SLIDE_HEIGHT_BUDGET, pyInt]
  refine ⟨h2, h1, h3, ?_⟩
  rw [h2, h3]
  decide

theorem insertIdx_eq_take_drop {α : Type} (a : α) :
    ∀ (n : Nat) (l : List α), n ≤ l.length →
      List.insertIdx n a l = l.take n ++ a :: l.drop n := by
  intro n
  induction n with
  | zero => intro l _; simp
  | succ n ih =>
    intro l h
    cases l with
    | nil => simp at h
    | cons x xs =>
      rw [List.insertIdx_succ_cons, ih xs (by simpa using h)]
      simp

theorem findIdx?_lt_length {α : Type} {p : α → Bool} :
    ∀ {l : List α} {n : Nat}, List.findIdx? p l = some n → n < l.length := by
  intro l
  induction l with
  | nil => intro n h; simp [List.findIdx?] at h
  | cons x xs ih =>
    intro n h
    rw [List.findIdx?_cons] at h
    by_cases hp : p x = true
    · rw [if_pos hp] at h
      injection h with h
      subst h
      simp
    · rw [if_neg hp, List.findIdx?_succ] at h
      rcases Option.map_eq_some'.mp h with ⟨m, hm, hmn⟩
      subst hmn
      have := ih hm
      simpa using Nat.succ_lt_succ this

theorem findIdx?_take_false {α : Type} {p : α → Bool} :
    ∀ {l : List α} {n : Nat}, List.findIdx? p l = some n →
      ∀ c ∈ l.take n, p c = false := by
  intro l
  induction l with
  | nil => intro n h; simp [List.findIdx?] at h
  | cons x xs ih =>
    intro n h c hc
    rw [List.findIdx?_cons] at h
    by_cases hp : p x = true
    · rw [if_pos hp] at h
      injection h with h
      subst h
      simp at hc
    · rw [if_neg hp, List.findIdx?_succ] at h
      rcases Option.map_eq_some'.mp h with ⟨m, hm, hmn⟩
      subst hmn
      rw [List.take_succ_cons] at hc
      rcases List.mem_cons.mp hc with rfl | hc'
      · exact Bool.eq_false_iff.mpr hp
      · exact ih hm c hc'

theorem insertIdx_findIdx_eq {α : Type} (q : α → Bool) (a : α) :
    ∀ l : List α, (∃ x ∈ l, q x = true) →
      List.insertIdx ((List.findIdx? q l).getD 0) a l =
        l.takeWhile (fun x => !q x) ++ a :: l.dropWhile (fun x => !q x) := by
  intro l
  induction l with
  | nil => rintro ⟨x, hx, _⟩; cases hx
  | cons y ys ih =>
    intro hex
    by_cases hq : q y = true
    · rw [List.findIdx?_cons, if_pos hq]
      simp [List.takeWhile_cons, List.dropWhile_cons, hq]
    · rw [List.findIdx?_cons, if_neg hq, List.findIdx?_succ]
      have hex' : ∃ x ∈ ys, q x = true := by
        rcases hex with ⟨x, hx, hqx⟩
        rcases List.mem_cons.mp hx with rfl | hx'
        · exact absurd hqx hq
        · exact ⟨x, hx', hqx⟩
      have hsome : (List.findIdx? q ys).isSome := by
        rw [List.findIdx?_isSome]
        rcases hex' with ⟨x, hx, hqx⟩
        exact List.any_eq_true.mpr ⟨x, hx, hqx⟩
      obtain ⟨i, hi⟩ := Option.isSome_iff_exists.mp hsome
      rw [hi]
      simp only [Option.map_some', Option.getD_some]
      rw [List.insertIdx_succ_cons]
      have hys := ih hex'
      rw [hi] at hys
      simp only [Option.getD_some] at hys
      rw [hys]
      simp [List.takeWhile_cons, List.dropWhile_cons, hq]

theorem findMapSuffix_eq_some {α : Type} (f : List Char → Option α) :
    ∀ (l : List Char) (a : α), findMapSuffix f l = some a →
      ∃ u v, l = u ++ v ∧ f v = some a := by
  intro l
  induction l with
  | nil =>
    intro a h
    exact ⟨[], [], rfl, by simpa [findMapSuffix] using h⟩
  | cons c rest ih =>
    intro a h
    simp only [findMapSuffix] at h
    cases hf : f (c :: rest) with
    | some b =>
      rw [hf] at h
      simp only [Option.orElse] at h
      injection h with h
      subst h
      exact ⟨[], c :: rest, rfl, hf⟩
    | none =>
      rw [hf] at h
      simp only [Option.orElse] at h
      obtain ⟨u, v, huv, hfv⟩ := ih a h
      exact ⟨c :: u, v, by rw [huv, List.cons_append], hfv⟩

theorem findMapSuffix_isSome_append {α : Type} (f : List Char → Option α)
    (u : List Char) {v : List Char}
    (h : (findMapSuffix f v).isSome = true) :
    (findMapSuffix f (u ++ v)).isSome = true := by
  induction u with
  | nil => simpa using h
  | cons c rest ih =>
    simp only [List.cons_append, findMapSuffix]
    cases hf : f (c :: (rest ++ v)) with
    | some b => simp [Option.orElse, hf]
    | none => simp [Option.orElse, hf, ih]

theorem pyReplaceAux_contains (p0 : Char) (prest rep : List Char) :
    ∀ (fuel : Nat) (cs : List Char), cs.length ≤ fuel →
      (∃ a b, cs = a ++ (p0 :: prest) ++ b) →
      ∃ u v, pyReplaceAux p0 prest rep fuel cs = u ++ rep ++ v := by
  intro fuel
  induction fuel with
  | zero =>
    rintro cs hlen ⟨a, b, hab⟩
    subst hab
    simp at hlen
  | succ fuel ih =>
    rintro cs hlen ⟨a, b, hab⟩
    cases cs with
    | nil => simp at hab
    | cons c rest =>
      by_cases hm : c = p0 ∧ rest.take prest.length = prest
      · refine ⟨[], pyReplaceAux p0 prest rep (fuel - prest.length)
          (rest.drop prest.length), ?_⟩
        simp only [pyReplaceAux, if_pos hm, List.nil_append]
      · rcases a with _ | ⟨a0, a'⟩
        · exfalso
          simp only [List.nil_append, List.cons_append, List.cons.injEq] at hab
          exact hm ⟨hab.1, by rw [hab.2]; exact List.take_left _ _⟩
        · simp only [List.cons_append, List.cons.injEq] at hab
          obtain ⟨u, v, huv⟩ := ih rest (by simpa using hlen)
            ⟨a', b, hab.2⟩
          refine ⟨c :: u, v, ?_⟩
          simp only [pyReplaceAux, if_neg hm, huv, List.cons_append]

theorem findIdx?_append_left_none {p : Char → Bool} :
    ∀ (l1 l2 : List Char), (∀ c ∈ l1, p c = false) →
      List.findIdx? p (l1 ++ l2) =
        (List.findIdx? p l2).map (· + l1.length) := by
  intro l1
  induction l1 with
  | nil =>
    intro l2 _
    cases h : List.findIdx? p l2 <;> simp [h]
  | cons c rest ih =>
    intro l2 hfree
    rw [List.cons_append, List.findIdx?_cons,
      if_neg (by simp [hfree c (List.mem_cons_self c rest)]),
      List.findIdx?_succ, ih l2 (fun x hx => hfree x (List.mem_cons_of_mem _ hx))]
    cases h : List.findIdx? p l2 <;> simp [h] <;> omega

theorem takeWhile_length_le {p : Char → Bool} :
    ∀ (l : List Char) (n : Nat) (c : Char), l.get? n = some c →
      p c = false → (l.takeWhile p).length ≤ n := by
  intro l
  induction l with
  | nil => intro n c h; simp at h
  | cons x xs ih =>
    intro n c h hpc
    cases n with
    | zero =>
      simp only [List.get?] at h
      injection h with h
      subst h
      rw [List.takeWhile_cons, if_neg (by simp [hpc])]
      simp
    | succ n =>
      simp only [List.get?] at h
      rw [List.takeWhile_cons]
      by_cases hp : p x = true
      · rw [if_pos hp]
        simpa using ih n c h hpc
      · rw [if_neg hp]
        simp

theorem hasScaleToken_mid :
    ∀ (y b : List Char),
      hasScaleToken
        (y ++ ('s' :: 'c' :: 'a' :: 'l' :: 'e' :: '-' :: '7' :: b)) = true := by
  intro y
  induction y with
  | nil =>
    intro b
    simp [hasScaleToken, anySuffix, headMatches, List.take, List.drop]
  | cons c rest ih =>
    intro b
    simp only [hasScaleToken, List.cons_append, List.append_eq, anySuffix]
      at ih ⊢
    rw [ih, Bool.or_true]

theorem scaleDirectiveAt_at_directive (X w : List Char)
    (hX : ∀ c ∈ X, c ≠ '>') :
    (scaleDirectiveAt
      ("<!-- _class:".data ++ (X ++ (" scale-78 -->".data ++ w)))).isSome =
      true := by
  have e1 : "<!-- _class:".data =
      ['<', '!', '-', '-', ' ', '_', 'c', 'l', 'a', 's', 's', ':'] := rfl
  rw [e1]
  simp only [List.cons_append, List.nil_append]
  unfold scaleDirectiveAt classDirectiveAt
  simp [headMatches, isPySpace, List.take, List.drop, List.takeWhile,
    String.data]
  have hfX : List.findIdx? (fun c => decide (c = '>')) X = none := by
    rw [List.findIdx?_eq_none_iff]
    intro c hc
    simpa using hX c hc
  rw [hfX, Option.none_or]
  have hget2 : (X ++ (' ' :: 's' :: 'c' :: 'a' :: 'l' :: 'e' :: '-' :: '7' ::
      '8' :: ' ' :: '-' :: '-' :: '>' :: w))[12 + X.length - 2]? =
      some '-' := by
    have h2 : 12 + X.length - 2 = X.length + 10 := by omega
    rw [h2, List.getElem?_append_right (by omega)]
    have h3 : X.length + 10 - X.length = 10 := by omega
    rw [h3]
    rfl
  have hget1 : (X ++ (' ' :: 's' :: 'c' :: 'a' :: 'l' :: 'e' :: '-' :: '7' ::
      '8' :: ' ' :: '-' :: '-' :: '>' :: w))[12 + X.length - 1]? =
      some '-' := by
    have h2 : 12 + X.length - 1 = X.length + 11 := by omega
    rw [h2, List.getElem?_append_right (by omega)]
    have h3 : X.length + 11 - X.length = 11 := by omega
    rw [h3]
    rfl
  dsimp only
  rw [if_pos ⟨by omega, hget2, hget1⟩]
  have htake : List.take (12 + X.length - 2) (X ++ (' ' :: 's' :: 'c' :: 'a' ::
      'l' :: 'e' :: '-' :: '7' :: '8' :: ' ' :: '-' :: '-' :: '>' :: w)) =
      (X ++ [' ']) ++ ('s' :: 'c' :: 'a' :: 'l' :: 'e' :: '-' :: '7' :: '8' ::
        ' ' :: []) := by
    have h2 : 12 + X.length - 2 = X.length + 10 := by omega
    rw [h2, List.take_append 10]
    simp
  have hm1le : (List.takeWhile isPySpace (X ++ (' ' :: 's' :: 'c' :: 'a' ::
      'l' :: 'e' :: '-' :: '7' :: '8' :: ' ' :: '-' :: '-' :: '>' ::
      w))).length ≤ (X ++ [' ']).length := by
    have hg : (X ++ (' ' :: 's' :: 'c' :: 'a' :: 'l' :: 'e' :: '-' :: '7' ::
        '8' :: ' ' :: '-' :: '-' :: '>' :: w)).get? (X.length + 1) =
        some 's' := by
      rw [List.get?_append_right (by omega)]
      have h3 : X.length + 1 - X.length = 1 := by omega
      rw [h3]
      rfl
    have := takeWhile_length_le (p := isPySpace) _ (X.length + 1) 's' hg
      (by decide)
    simpa using this
  have htok : hasScaleToken (List.drop
      (List.takeWhile isPySpace (X ++ (' ' :: 's' :: 'c' :: 'a' :: 'l' ::
        'e' :: '-' :: '7' :: '8' :: ' ' :: '-' :: '-' :: '>' :: w))).length
      (List.take (12 + X.length - 2) (X ++ (' ' :: 's' :: 'c' :: 'a' :: 'l' ::
        'e' :: '-' :: '7' :: '8' :: ' ' :: '-' :: '-' :: '>' :: w)))) =
      true := by
    rw [htake, List.drop_append_of_le_length hm1le]
    exact hasScaleToken_mid _ _
  simp [htok]

theorem classDirectiveAt_some_spec :
    ∀ (v : List Char) (len : Nat) (rr : List Char),
      classDirectiveAt v = some (len, rr) →
      4 ≤ len ∧ v.take 4 = "<!--".data ∧ ∀ c ∈ rr, c ≠ '>' := by
  intro v len rr h
  unfold classDirectiveAt at h
  by_cases h1 : headMatches "<!--" v = true
  · rw [if_pos h1] at h
    by_cases h2 : headMatches "_class:"
        ((v.drop 4).drop ((v.drop 4).takeWhile isPySpace).length) = true
    · rw [if_pos h2] at h
      simp only [] at h
      cases hfind : List.findIdx? (fun c => decide (c = '>'))
          (((v.drop 4).drop ((v.drop 4).takeWhile isPySpace).length).drop 7) with
      | none => rw [hfind] at h; exact Option.noConfusion h
      | some g =>
        rw [hfind] at h
        simp only [] at h
        by_cases h3 : 2 ≤ g ∧
            (((v.drop 4).drop ((v.drop 4).takeWhile isPySpace).length).drop
              7).get? (g - 2) = some '-' ∧
            (((v.drop 4).drop ((v.drop 4).takeWhile isPySpace).length).drop
              7).get? (g - 1) = some '-'
        · rw [if_pos h3] at h
          injection h with h
          have hlen : len = 4 + ((v.drop 4).takeWhile isPySpace).length + 7 +
              g + 1 := (Prod.mk.injEq _ _ _ _ ▸ h).1.symm
          have hr : rr = (((((v.drop 4).drop
              ((v.drop 4).takeWhile isPySpace).length).drop 7).take
              (g - 2)).drop
              ((((v.drop 4).drop
                ((v.drop 4).takeWhile isPySpace).length).drop 7).takeWhile
                isPySpace).length) := (Prod.mk.injEq _ _ _ _ ▸ h).2.symm
          refine ⟨by omega, by simpa [headMatches] using h1, ?_⟩
          intro c hc
          rw [hr] at hc
          have hc2 := List.mem_of_mem_drop hc
          have hc3 : c ∈ (((v.drop 4).drop
              ((v.drop 4).takeWhile isPySpace).length).drop 7).take g := by
            have hmin : (((v.drop 4).drop
                ((v.drop 4).takeWhile isPySpace).length).drop 7).take (g - 2) =
                ((((v.drop 4).drop
                  ((v.drop 4).takeWhile isPySpace).length).drop 7).take
                  g).take (g - 2) := by
              rw [List.take_take]
              congr 1
              omega
            rw [hmin] at hc2
            exact List.mem_of_mem_take hc2
          have := findIdx?_take_false hfind c hc3
          simpa using this
        · rw [if_neg h3] at h
          exact Option.noConfusion h
    · rw [if_neg h2] at h
      exact Option.noConfusion h
  · rw [if_neg h1] at h
    exact Option.noConfusion h

theorem joinData_append_mid (sep : Char) (d : String) :
    ∀ (l1 l2 : List String),
      ∃ u v, joinData sep (l1 ++ d :: l2) = u ++ d.data ++ v := by
  intro l1
  induction l1 with
  | nil =>
    intro l2
    cases l2 with
    | nil => exact ⟨[], [], by simp [joinData]⟩
    | cons y ys =>
      exact ⟨[], sep :: joinData sep (y :: ys), by simp [joinData]⟩
  | cons x xs ih =>
    intro l2
    obtain ⟨u, v, huv⟩ := ih l2
    cases hxs : xs ++ d :: l2 with
    | nil => exact absurd hxs (by simp)
    | cons y ys =>
      refine ⟨x.data ++ sep :: u, v, ?_⟩
      rw [List.cons_append, hxs, joinData, ← hxs, huv]
      simp

theorem findMapSuffix_isSome_head {α : Type} (f : List Char → Option α)
    (l : List Char) (h : (f l).isSome = true) :
    (findMapSuffix f l).isSome = true := by
  cases l with
  | nil => simpa [findMapSuffix] using h
  | cons c rest =>
    simp only [findMapSuffix]
    cases hf : f (c :: rest) with
    | some b => simp [Option.orElse, hf]
    | none => rw [hf] at h; simp at h

theorem inject_of_hasScale (s sc : String)
    (h : hasScaleDirective s = true) : inject_scale_class s sc = s := by
  unfold inject_scale_class
  rw [if_pos h]



theorem hasScale_after_inject (s : String)
    (h1 : hasScaleDirective s = false) :
    hasScaleDirective (inject_scale_class s "scale-78") = true := by
  unfold inject_scale_class
  rw [h1]
  simp only [Bool.false_eq_true, if_false]
  cases hfind : findClassDirective s with
  | some p =>
    obtain ⟨g0, g1⟩ := p
    simp only []
    obtain ⟨u, v, huv, hfv⟩ := findMapSuffix_eq_some _ _ _ hfind
    rw [Option.map_eq_some'] at hfv
    obtain ⟨⟨len, rr⟩, hcls, hpair⟩ := hfv
    injection hpair with hg0 hg1
    obtain ⟨hlen4, htake4, hfree⟩ := classDirectiveAt_some_spec v len rr hcls
    have hocc : ∃ a b, s.data = a ++ g0.data ++ b := by
      refine ⟨u, v.drop len, ?_⟩
      rw [huv, ← hg0]
      rw [List.append_assoc, List.take_append_drop]
    have hg0head : ∃ tail, g0.data = '<' :: tail := by
      cases hv : v with
      | nil =>
        rw [hv] at htake4
        simp at htake4
      | cons c rest =>
        have hc : c = '<' := by
          rw [hv, List.take_succ_cons] at htake4
          have h4 : c :: rest.take 3 = ['<', '!', '-', '-'] := htake4
          exact (List.cons.injEq _ _ _ _ ▸ h4).1
        obtain ⟨k, hk⟩ : ∃ k, len = k + 1 := ⟨len - 1, by omega⟩
        refine ⟨rest.take k, ?_⟩
        rw [← hg0, hv, hk]
        rw [List.take_succ_cons, hc]
    obtain ⟨tail, htail⟩ := hg0head
    obtain ⟨a, b, hab⟩ := hocc
    rw [htail] at hab
    obtain ⟨u2, v2, hrep⟩ := pyReplaceAux_contains '<' tail
      ("<!-- _class: " ++ g1 ++ " " ++ "scale-78" ++ " -->").data
      s.data.length s.data (le_refl _) ⟨a, b, hab⟩
    unfold pyReplace
    rw [htail]
    simp only []
    unfold hasScaleDirective findScaleDirective
    have hdata : (String.mk (pyReplaceAux '<' tail
        ("<!-- _class: " ++ g1 ++ " " ++ "scale-78" ++ " -->").data
        s.data.length s.data)).data = u2 ++
        ("<!-- _class: " ++ g1 ++ " " ++ "scale-78" ++ " -->").data ++ v2 := by
      rw [hrep]
    rw [hdata]
    have hnew : ("<!-- _class: " ++ g1 ++ " " ++ "scale-78" ++ " -->").data ++
        v2 = "<!-- _class:".data ++
          ((' ' :: g1.data) ++ (" scale-78 -->".data ++ v2)) := by
      simp only [String.data_append]
      simp [List.append_assoc, List.cons_append, List.singleton_append]
    have hXfree : ∀ c ∈ (' ' :: g1.data), c ≠ '>' := by
      intro c hc
      rcases List.mem_cons.mp hc with rfl | hc2
      · decide
      · rw [← hg1] at hc2
        exact hfree c (by simpa using hc2)
    have hmatch := scaleDirectiveAt_at_directive (' ' :: g1.data) v2 hXfree
    rw [List.append_assoc, hnew]
    apply findMapSuffix_isSome_append
    apply findMapSuffix_isSome_head
    simpa using hmatch
  | none =>
    simp only []
    have hle : (List.findIdx? (fun l => decide (pyStrip l ≠ ""))
        (pySplit s '\n')).getD 0 ≤ (pySplit s '\n').length := by
      cases hf : List.findIdx? (fun l => decide (pyStrip l ≠ ""))
          (pySplit s '\n') with
      | some i =>
        have := findIdx?_lt_length hf
        simpa using Nat.le_of_lt this
      | none => simp
    rw [insertIdx_eq_take_drop _ _ _ hle]
    obtain ⟨u, v, hjoin⟩ := joinData_append_mid '\n'
      ("<!-- _class: " ++ "scale-78" ++ " -->")
      ((pySplit s '\n').take ((List.findIdx? (fun l => decide (pyStrip l ≠ ""))
        (pySplit s '\n')).getD 0))
      ((pySplit s '\n').drop ((List.findIdx? (fun l => decide (pyStrip l ≠ ""))
        (pySplit s '\n')).getD 0))
    unfold pyJoin hasScaleDirective findScaleDirective
    have hdata : (String.mk (joinData '\n' ((pySplit s '\n').take
        ((List.findIdx? (fun l => decide (pyStrip l ≠ ""))
          (pySplit s '\n')).getD 0) ++
        ("<!-- _class: " ++ "scale-78" ++ " -->") ::
        (pySplit s '\n').drop ((List.findIdx? (fun l => decide (pyStrip l ≠ ""))
          (pySplit s '\n')).getD 0)))).data =
        u ++ ("<!-- _class: " ++ "scale-78" ++ " -->").data ++ v := by
      rw [hjoin]
    rw [hdata]
    have hnew : ("<!-- _class: " ++ "scale-78" ++ " -->").data ++ v =
        "<!-- _class:".data ++ ([] ++ (" scale-78 -->".data ++ v)) := by
      have e2 : ("<!-- _class: " ++ "scale-78" ++ " -->").data =
          "<!-- _class:".data ++ " scale-78 -->".data := rfl
      rw [e2]
      simp
    have hmatch := scaleDirectiveAt_at_directive [] v (by simp)
    rw [List.append_assoc, hnew]
    apply findMapSuffix_isSome_append
    apply findMapSuffix_isSome_head
    simpa using hmatch



/-- C6: scale-directive injection is idempotent — a slide text already
containing a scale-class directive is returned unchanged (so re-running the
pass injects nothing and leaves exactly one scale token); when a `_class`
directive exists without a scale token, the scale class is appended into that
directive (Python `str.replace` of the matched comment); otherwise a new
directive comment is inserted immediately before the first non-blank line of
the slide; and injecting `scale-78` twice equals injecting it once. -/
theorem inject_scale_class_spec :
    (∀ s sc, hasScaleDirective s = true → inject_scale_class s sc = s) ∧
    (∀ s sc g0 g1, hasScaleDirective s = false →
      findClassDirective s = some (g0, g1) →
      inject_scale_class s sc =
        pyReplace s g0 ("<!-- _class: " ++ g1 ++ " " ++ sc ++ " -->")) ∧
    (∀ s sc, hasScaleDirective s = false → findClassDirective s = none →
      (∃ l ∈ pySplit s '\n', pyStrip l ≠ "") →
      inject_scale_class s sc = pyJoin '\n'
        ((pySplit s '\n').takeWhile (fun l => decide (pyStrip l = "")) ++
          ("<!-- _class: " ++ sc ++ " -->") ::
          (pySplit s '\n').dropWhile (fun l => decide (pyStrip l = "")))) ∧
    (∀ s, inject_scale_class (inject_scale_class s "scale-78") "scale-78" =
      inject_scale_class s "scale-78") := by
  refine ⟨inject_of_hasScale, ?_, ?_, ?_⟩
  · intro s sc g0 g1 h1 hf
    unfold inject_scale_class
    rw [h1]
    simp only [Bool.false_eq_true, if_false]
    rw [hf]
  · intro s sc h1 hf hex
    unfold inject_scale_class
    rw [h1]
    simp only [Bool.false_eq_true, if_false]
    rw [hf]
    simp only []
    have hex' : ∃ x ∈ pySplit s '\n', decide (pyStrip x ≠ "") = true := by
      rcases hex with ⟨l, hl, hne⟩
      exact ⟨l, hl, by simpa using hne⟩
    rw [insertIdx_findIdx_eq _ _ _ hex']
    have hq : (fun (x : String) => !decide (pyStrip x ≠ "")) =
        (fun l => decide (pyStrip l = "")) := by
      funext x
      rw [decide_not, Bool.not_not]
    rw [hq]
  · intro s
    by_cases h1 : hasScaleDirective s = true
    · rw [inject_of_hasScale s _ h1]
      exact inject_of_hasScale s _ h1
    · rw [Bool.not_eq_true] at h1
      exact inject_of_hasScale _ _ (hasScale_after_inject s h1)

/-- Witness for C6: an already-annotated slide passes through unchanged, and
on a slide with a leading blank line the new directive lands right before the
first non-blank line. -/
theorem inject_scale_class_spec_witness :
    inject_scale_class "<!-- _class: scale-78 -->\n# T" "scale-90" =
      "<!-- _class: scale-78 -->\n# T" ∧
    inject_scale_class "\n# Title" "scale-78" = pyJoin '\n'
      ((pySplit "\n# Title" '\n').takeWhile
        (fun l => decide (pyStrip l = "")) ++
        ("<!-- _class: " ++ "scale-78" ++ " -->") ::
        (pySplit "\n# Title" '\n').dropWhile
          (fun l => decide (pyStrip l = ""))) :=
  ⟨inject_scale_class_spec.1 "<!-- _class: scale-78 -->\n# T" "scale-90"
      (by decide),
    inject_scale_class_spec.2.2.1 "\n# Title" "scale-78" (by decide)
      (by decide) ⟨"# Title", by decide, by decide⟩⟩

end CdlSlides
